import Mathlib

/-!
Verification of the Fitness-Health-Tracker calculation and validation engine.

The JavaScript source is shallowly embedded:
* JS numbers are modelled as rationals; where the code can produce the
  non-finite values NaN and ±Infinity (division by a zero height in
  calculateBMI) we use the extended type JSVal, whose comparison operators
  follow IEEE semantics (every comparison with NaN is false).
* JS Math.round (half away from zero towards +∞) is jsRound;
  parseInt applied to an ordinary (plain-decimal) JS number value truncates
  towards zero and is jsParseIntQ; parseFloat applied to a number value is
  the identity.
* Stateful classes (WorkoutPlanner, ProgressTracker) become explicit state
  passing over a PlanState record; the nondeterministic id generator and
  clock are passed in as arguments; DOM rendering and localStorage are
  outside the modelled core, exactly as the specification scopes them out.
-/

namespace FitnessTracker

/-- A JavaScript number: NaN, +Infinity, -Infinity, or a finite value
(modelled as a rational). -/
inductive JSVal where
  | nan : JSVal
  | inf : JSVal
  | ninf : JSVal
  | num : ℚ → JSVal
deriving DecidableEq, Repr

namespace JSVal

/-- JS strict-less-than: any comparison involving NaN is false. -/
def lt : JSVal → JSVal → Bool
  | nan, _ => false
  | _, nan => false
  | num a, num b => decide (a < b)
  | ninf, ninf => false
  | ninf, _ => true
  | _, ninf => false
  | inf, _ => false
  | num _, inf => true

/-- JS greater-or-equal: false whenever NaN is involved, otherwise the
negation of strict-less-than. -/
def ge (a b : JSVal) : Bool :=
  match a, b with
  | nan, _ => false
  | _, nan => false
  | _, _ => !(lt a b)

end JSVal

/-- JS division of two finite numbers, which can leave the finite range:
x/0 is +Infinity for x>0, -Infinity for x<0, and NaN for 0/0. -/
def jsDivQ (a b : ℚ) : JSVal :=
  if b = 0 then
    if a > 0 then .inf else if a < 0 then .ninf else .nan
  else
    .num (a / b)

/-- JS Math.round on a finite number: half rounds towards +∞. -/
def jsRound (q : ℚ) : ℤ := ⌊q + 1/2⌋

/-- JS parseInt applied to a plain-decimal number value: the fractional
part is dropped (truncation towards zero). -/
def jsParseIntQ (q : ℚ) : ℤ := if 0 ≤ q then ⌊q⌋ else -⌊-q⌋

/-- JS String.prototype.trim: strip leading and trailing whitespace
(kept as an explicit list computation so that proofs can evaluate it). -/
def jsTrim (s : String) : String :=
  String.mk
    (((s.data.dropWhile Char.isWhitespace).reverse.dropWhile
        Char.isWhitespace).reverse)

/-- JS String.prototype.toLowerCase on the ASCII range, which is all the
day-name comparison needs. -/
def jsToLower (s : String) : String :=
  String.mk (s.data.map (fun c =>
    if c.isUpper then Char.ofNat (c.toNat + 32) else c))

/-! ## Unit converter (src/js/bmi-calculator.js, conversion section) -/

/-- Source constant LBS_TO_KG. -/
def LBS_TO_KG : ℚ := 0.453592

/-- Source constant INCHES_TO_CM. -/
def INCHES_TO_CM : ℚ := 2.54

/-- Source constant CM_TO_METERS (a divisor, per the source). -/
def CM_TO_METERS : ℚ := 100

/-- poundsToKilograms from the source: kg = lbs × 0.453592. -/
def poundsToKilograms (pounds : ℚ) : ℚ := pounds * LBS_TO_KG

/-- kilogramsToPounds from the source: lbs = kg ÷ 0.453592. -/
def kilogramsToPounds (kilograms : ℚ) : ℚ := kilograms / LBS_TO_KG

/-- feetInchesToCentimeters from the source: (feet × 12 + inches) × 2.54. -/
def feetInchesToCentimeters (feet inches : ℚ) : ℚ :=
  (feet * 12 + inches) * INCHES_TO_CM

/-- centimetersToMeters from the source: m = cm ÷ 100. -/
def centimetersToMeters (centimeters : ℚ) : ℚ := centimeters / CM_TO_METERS

/-! ## BMICalculator logic (src/js/bmi-calculator.js) -/

/-- BMICalculator._determineBMICategory, translated branch for branch.
The comparisons are the JS ones on a possibly non-finite bmi value. -/
def determineBMICategory (bmi : JSVal) : String :=
  if bmi.lt (.num 18.5) then "Underweight"
  else if bmi.ge (.num 18.5) && bmi.lt (.num 25.0) then "Normal"
  else if bmi.ge (.num 25.0) && bmi.lt (.num 30.0) then "Overweight"
  else "Obese"

/-- Result record of BMICalculator.calculateBMI. -/
structure BMIResult where
  bmi : JSVal
  category : String
  weightKg : ℚ
  heightM : ℚ
deriving DecidableEq, Repr

/-- Math.round(bmi * 10) / 10 on a possibly non-finite value
(Math.round maps NaN to NaN and ±Infinity to itself). -/
def roundTo1 : JSVal → JSVal
  | .nan => .nan
  | .inf => .inf
  | .ninf => .ninf
  | .num q => .num ((jsRound (q * 10) : ℚ) / 10)

/-- BMICalculator.calculateBMI: unit conversion, bmi = weightKg / heightM²,
category classification. Inputs are finite JS numbers; the division can
produce a non-finite bmi when heightM is 0. -/
def calculateBMI (weight : ℚ) (weightUnit : String) (height : ℚ)
    (heightUnit : String) (heightInches : ℚ := 0) : BMIResult :=
  let weightKg := if weightUnit = "lbs" then poundsToKilograms weight else weight
  let heightM :=
    if heightUnit = "ft" then
      centimetersToMeters (feetInchesToCentimeters height heightInches)
    else if heightUnit = "cm" then
      centimetersToMeters height
    else height
  let bmi := jsDivQ weightKg (heightM * heightM)
  { bmi := roundTo1 bmi
    category := determineBMICategory bmi
    weightKg := weightKg
    heightM := heightM }

/-! ## Validator (validation module) -/

namespace Validator

/-- Validator.isNotEmpty applied to a string value: true iff the trimmed
form has positive length (non-string inputs are outside this embedding;
on them the source returns false by the typeof guard). -/
def isNotEmpty (value : String) : Bool := (jsTrim value).length > 0

/-- Validator.isPositiveNumber applied to a finite JS number value:
parseFloat of a number is the number itself and is never NaN,
so the check is value > 0. -/
def isPositiveNumber (value : ℚ) : Bool := decide (value > 0)

/-- Validator.getErrorMessage: fixed lookup from validation type to a
templated message, with a generic fallback. -/
def getErrorMessage (validationType fieldName : String) : String :=
  if validationType = "empty" then "Please enter " ++ fieldName
  else if validationType = "negative" then fieldName ++ " must be a positive number"
  else if validationType = "nonNumeric" then "Please enter a valid number for " ++ fieldName
  else if validationType = "outOfRange" then fieldName ++ " is out of valid range"
  else "Invalid input"

end Validator

/-! ## CalorieEstimator logic (Calorie Estimator module) -/

/-- CalorieEstimator._calculateBMR: Mifflin-St Jeor base with the binary
gender branch (strict string comparison with "male"). -/
def calculateBMR (age : ℚ) (gender : String) (weightKg heightCm : ℚ) : ℚ :=
  let baseCalc := 10 * weightKg + 6.25 * heightCm - 5 * age
  if gender = "male" then baseCalc + 5 else baseCalc - 161

/-- CalorieEstimator._getActivityMultiplier: the five-entry lookup table;
a missed lookup yields undefined, so the or-default in the source
produces 1.2 for every other key (all table values are truthy). -/
def getActivityMultiplier (activityLevel : String) : ℚ :=
  if activityLevel = "sedentary" then 1.2
  else if activityLevel = "lightly_active" then 1.375
  else if activityLevel = "moderately_active" then 1.55
  else if activityLevel = "very_active" then 1.725
  else if activityLevel = "extra_active" then 1.9
  else 1.2

/-- Intermediate targets record of CalorieEstimator._calculateTargets. -/
structure CalorieTargets where
  maintenance : ℚ
  weightLoss : ℚ
  weightGain : ℚ
deriving DecidableEq, Repr

/-- CalorieEstimator._calculateTargets: maintenance = bmr × multiplier,
loss = maintenance − 500, gain = maintenance + 500, unrounded. -/
def calculateTargets (bmr activityMultiplier : ℚ) : CalorieTargets :=
  let maintenance := bmr * activityMultiplier
  { maintenance := maintenance
    weightLoss := maintenance - 500
    weightGain := maintenance + 500 }

/-- Result record of CalorieEstimator.calculateCalories, all fields
already rounded to integers at the output boundary. -/
structure CalorieResult where
  bmr : ℤ
  maintenance : ℤ
  weightLoss : ℤ
  weightGain : ℤ
deriving DecidableEq, Repr

/-- CalorieEstimator.calculateCalories: unit conversion, raw BMR,
activity multiplier, targets, then one rounding of each output. -/
def calculateCalories (age : ℚ) (gender : String) (weight : ℚ)
    (weightUnit : String) (height : ℚ) (heightUnit : String)
    (activityLevel : String) (heightInches : ℚ := 0) : CalorieResult :=
  let weightKg := if weightUnit = "lbs" then poundsToKilograms weight else weight
  let heightCm :=
    if heightUnit = "ft" then feetInchesToCentimeters height heightInches
    else height
  let bmr := calculateBMR age gender weightKg heightCm
  let activityMultiplier := getActivityMultiplier activityLevel
  let targets := calculateTargets bmr activityMultiplier
  { bmr := jsRound bmr
    maintenance := jsRound targets.maintenance
    weightLoss := jsRound targets.weightLoss
    weightGain := jsRound targets.weightGain }

/-! ## WorkoutPlanner data model and operations (Workout Planner module) -/

/-- One of the seven fixed weekday keys of the weekly plan object. -/
inductive Day where
  | monday | tuesday | wednesday | thursday | friday | saturday | sunday
deriving DecidableEq, Repr

/-- An Exercise entry as constructed by WorkoutPlanner.addExercise.
The completedAt timestamp (read by ProgressTracker, never written by the
planner) is modelled as an optional numeric time value. -/
structure Exercise where
  id : String
  name : String
  sets : ℤ
  reps : ℤ
  completed : Bool
  addedAt : String
  completedAt : Option ℚ := none
deriving DecidableEq, Repr

/-- The in-memory weekly plan: the seven day sequences plus lastModified. -/
structure PlanState where
  monday : List Exercise := []
  tuesday : List Exercise := []
  wednesday : List Exercise := []
  thursday : List Exercise := []
  friday : List Exercise := []
  saturday : List Exercise := []
  sunday : List Exercise := []
  lastModified : String := ""
deriving DecidableEq, Repr

namespace PlanState

/-- Read a day sequence out of the plan object. -/
def dayGet (p : PlanState) : Day → List Exercise
  | .monday => p.monday
  | .tuesday => p.tuesday
  | .wednesday => p.wednesday
  | .thursday => p.thursday
  | .friday => p.friday
  | .saturday => p.saturday
  | .sunday => p.sunday

/-- Replace a day sequence in the plan object. -/
def daySet (p : PlanState) (d : Day) (l : List Exercise) : PlanState :=
  match d with
  | .monday => { p with monday := l }
  | .tuesday => { p with tuesday := l }
  | .wednesday => { p with wednesday := l }
  | .thursday => { p with thursday := l }
  | .friday => { p with friday := l }
  | .saturday => { p with saturday := l }
  | .sunday => { p with sunday := l }

end PlanState

/-- The source combination day.toLowerCase() + this.days.includes(...) +
indexing the plan object by that lowercased key: the recognised key, or
none when includes returns false. -/
def parseDay (day : String) : Option Day :=
  let lower := jsToLower day
  if lower = "monday" then some .monday
  else if lower = "tuesday" then some .tuesday
  else if lower = "wednesday" then some .wednesday
  else if lower = "thursday" then some .thursday
  else if lower = "friday" then some .friday
  else if lower = "saturday" then some .saturday
  else if lower = "sunday" then some .sunday
  else none

/-- Outcome of WorkoutPlanner.addExercise: the success record carrying
the created exercise, or the failure record carrying the error text. -/
inductive AddResult where
  | success (exercise : Exercise) : AddResult
  | failure (error : String) : AddResult
deriving DecidableEq, Repr

/-- The error text of an AddResult, if it is a failure. -/
def AddResult.error? : AddResult → Option String
  | .success _ => none
  | .failure e => some e

/-- WorkoutPlanner._validateExerciseInput: name then sets then reps,
returning the first failing check. -/
def validateExerciseInput (exerciseName : String) (sets reps : ℚ) :
    Option String :=
  if !Validator.isNotEmpty exerciseName then
    some "Please enter an exercise name"
  else if !Validator.isPositiveNumber sets then
    some "Sets must be a positive number"
  else if !Validator.isPositiveNumber reps then
    some "Reps must be a positive number"
  else
    none

/-- WorkoutPlanner.addExercise. Validation first (name, sets, reps), then
the day check, then construction of the exercise with parseInt applied to
sets and reps and an append to the day sequence. The generated unique id
and the current timestamp are passed in explicitly. -/
def addExercise (p : PlanState) (day exerciseName : String) (sets reps : ℚ)
    (freshId now : String) : AddResult × PlanState :=
  match validateExerciseInput exerciseName sets reps with
  | some e => (.failure e, p)
  | none =>
    match parseDay day with
    | none => (.failure "Please select a valid day of the week", p)
    | some d =>
      let exercise : Exercise :=
        { id := freshId
          name := jsTrim exerciseName
          sets := jsParseIntQ sets
          reps := jsParseIntQ reps
          completed := false
          addedAt := now }
      (.success exercise,
       { p.daySet d (p.dayGet d ++ [exercise]) with lastModified := now })

/-- In-place flip of the completed flag of the first exercise with the
given id, as done via find-then-mutate in the source. -/
def toggleFirst (eid : String) : List Exercise → List Exercise
  | [] => []
  | ex :: rest =>
    if ex.id = eid then { ex with completed := !ex.completed } :: rest
    else ex :: toggleFirst eid rest

/-- WorkoutPlanner.toggleExerciseCompletion: false when the day is invalid
or find returns no exercise with the id; otherwise flips the completed
flag of that (first matching) exercise, updates lastModified, returns true. -/
def toggleExerciseCompletion (p : PlanState) (day exerciseId now : String) :
    Bool × PlanState :=
  match parseDay day with
  | none => (false, p)
  | some d =>
    match (p.dayGet d).find? (fun ex => ex.id == exerciseId) with
    | none => (false, p)
    | some _ =>
      (true, { p.daySet d (toggleFirst exerciseId (p.dayGet d)) with
                 lastModified := now })

/-- WorkoutPlanner.removeExercise: findIndex then splice of one entry;
false when the day is invalid or no entry has the id. -/
def removeExercise (p : PlanState) (day exerciseId now : String) :
    Bool × PlanState :=
  match parseDay day with
  | none => (false, p)
  | some d =>
    match (p.dayGet d).findIdx? (fun ex => ex.id == exerciseId) with
    | none => (false, p)
    | some i =>
      (true, { p.daySet d ((p.dayGet d).eraseIdx i) with lastModified := now })

/-! ## ProgressTracker logic (src/js/progress-tracker.js) -/

/-- The days array iterated by ProgressTracker._getWorkoutHistory, in
source order. -/
def trackerDays : List Day :=
  [.monday, .tuesday, .wednesday, .thursday, .friday, .saturday, .sunday]

/-- Mutable counters of the _getWorkoutHistory loop. -/
structure TrackerAcc where
  totalWorkouts : ℕ
  completedWorkouts : ℕ
  currentWeekWorkouts : ℕ
  lastWorkoutDate : Option ℚ
deriving DecidableEq, Repr

/-- One iteration of the inner forEach over an exercise: count it, and if
completed also bump the completed and current-week counters and track the
newest completedAt date when one is present. -/
def trackStep (acc : TrackerAcc) (exercise : Exercise) : TrackerAcc :=
  let acc := { acc with totalWorkouts := acc.totalWorkouts + 1 }
  if exercise.completed then
    let acc := { acc with
      completedWorkouts := acc.completedWorkouts + 1
      currentWeekWorkouts := acc.currentWeekWorkouts + 1 }
    match exercise.completedAt with
    | none => acc
    | some completedDate =>
      match acc.lastWorkoutDate with
      | none => { acc with lastWorkoutDate := some completedDate }
      | some last =>
        if completedDate > last then
          { acc with lastWorkoutDate := some completedDate }
        else acc
  else acc

/-- The statistics record returned by ProgressTracker._getWorkoutHistory
(the last-workout date is kept as the optional raw value; its locale
formatting to a display string is outside the modelled core). -/
structure WorkoutStats where
  totalWorkouts : ℕ
  currentWeekWorkouts : ℕ
  completionRate : ℚ
  lastWorkoutDate : Option ℚ
deriving DecidableEq, Repr

/-- ProgressTracker._getWorkoutHistory: fold the counting loop over the
seven day sequences in order, then completionRate is the guarded ratio
(0 when totalWorkouts is 0, avoiding the 0/0 NaN). -/
def getWorkoutHistory (p : PlanState) : WorkoutStats :=
  let acc := trackerDays.foldl
    (fun acc d => (p.dayGet d).foldl trackStep acc)
    { totalWorkouts := 0, completedWorkouts := 0,
      currentWeekWorkouts := 0, lastWorkoutDate := none }
  { totalWorkouts := acc.totalWorkouts
    currentWeekWorkouts := acc.currentWeekWorkouts
    completionRate :=
      if acc.totalWorkouts > 0 then
        (acc.completedWorkouts : ℚ) / (acc.totalWorkouts : ℚ)
      else 0
    lastWorkoutDate := acc.lastWorkoutDate }

/-- All exercises of the plan in the iteration order of the tracker loop. -/
def allExercises (p : PlanState) : List Exercise :=
  trackerDays.flatMap p.dayGet

/-! ## Theorems -/

/-- The classifier on a finite bmi value, as nested half-open range tests
over the rationals. -/
lemma determineBMICategory_num (q : ℚ) :
    determineBMICategory (.num q) =
      if q < 18.5 then "Underweight"
      else if q < 25.0 then "Normal"
      else if q < 30.0 then "Overweight"
      else "Obese" := by
  simp only [determineBMICategory, JSVal.lt, JSVal.ge]
  by_cases h1 : q < 18.5 <;> by_cases h2 : q < 25.0 <;> by_cases h3 : q < 30.0 <;>
    simp [h1, h2, h3]

/-- C2: BMI classification uses half-open intervals with inclusive lower
bounds: Underweight iff bmi < 18.5, Normal iff 18.5 ≤ bmi < 25.0,
Overweight iff 25.0 ≤ bmi < 30.0, Obese iff bmi ≥ 30.0; at the boundaries,
18.5 is Normal, 25.0 is Overweight, 30.0 is Obese. -/
theorem bmi_category_half_open_intervals (q : ℚ) :
    (determineBMICategory (.num q) = "Underweight" ↔ q < 18.5) ∧
    (determineBMICategory (.num q) = "Normal" ↔ 18.5 ≤ q ∧ q < 25) ∧
    (determineBMICategory (.num q) = "Overweight" ↔ 25 ≤ q ∧ q < 30) ∧
    (determineBMICategory (.num q) = "Obese" ↔ 30 ≤ q) ∧
    determineBMICategory (.num 18.5) = "Normal" ∧
    determineBMICategory (.num 25.0) = "Overweight" ∧
    determineBMICategory (.num 30.0) = "Obese" := by
  refine ⟨?_, ?_, ?_, ?_, ?_, ?_, ?_⟩
  · rw [determineBMICategory_num]; split_ifs with h1 h2 h3
    · exact iff_of_true rfl h1
    · exact iff_of_false (by decide) h1
    · exact iff_of_false (by decide) h1
    · exact iff_of_false (by decide) h1
  · rw [determineBMICategory_num]; split_ifs with h1 h2 h3
    · refine iff_of_false (by decide) ?_
      rintro ⟨ha, _⟩; linarith
    · exact iff_of_true rfl ⟨by linarith, by linarith⟩
    · refine iff_of_false (by decide) ?_
      rintro ⟨_, hb⟩; linarith
    · refine iff_of_false (by decide) ?_
      rintro ⟨_, hb⟩; linarith
  · rw [determineBMICategory_num]; split_ifs with h1 h2 h3
    · refine iff_of_false (by decide) ?_
      rintro ⟨ha, _⟩; linarith
    · refine iff_of_false (by decide) ?_
      rintro ⟨ha, _⟩; linarith
    · exact iff_of_true rfl ⟨by linarith, by linarith⟩
    · refine iff_of_false (by decide) ?_
      rintro ⟨_, hb⟩; linarith
  · rw [determineBMICategory_num]; split_ifs with h1 h2 h3
    · refine iff_of_false (by decide) ?_
      intro ha; linarith
    · refine iff_of_false (by decide) ?_
      intro ha; linarith
    · refine iff_of_false (by decide) ?_
      intro ha; linarith
    · exact iff_of_true rfl (by linarith)
  · rw [determineBMICategory_num]; norm_num
  · rw [determineBMICategory_num]; norm_num
  · rw [determineBMICategory_num]; norm_num

/-- C10: the classification is total with Obese as the catch-all branch:
every value maps to one of the four category strings; a value satisfying
none of the three guard conditions (in particular NaN and +Infinity, as
produced by calculateBMI when heightM is 0) reaches the final else and
yields Obese rather than an error. -/
theorem bmi_category_total_obese_catchall (v : JSVal) :
    (determineBMICategory v = "Underweight" ∨
     determineBMICategory v = "Normal" ∨
     determineBMICategory v = "Overweight" ∨
     determineBMICategory v = "Obese") ∧
    (v.lt (.num 18.5) = false →
     ¬(v.ge (.num 18.5) = true ∧ v.lt (.num 25.0) = true) →
     ¬(v.ge (.num 25.0) = true ∧ v.lt (.num 30.0) = true) →
     determineBMICategory v = "Obese") ∧
    determineBMICategory .nan = "Obese" ∧
    determineBMICategory .inf = "Obese" ∧
    (calculateBMI 70 "kg" 0 "m" 0).bmi = .inf ∧
    (calculateBMI 70 "kg" 0 "m" 0).category = "Obese" ∧
    (calculateBMI 0 "kg" 0 "m" 0).bmi = .nan ∧
    (calculateBMI 0 "kg" 0 "m" 0).category = "Obese" := by
  have hbmi : ∀ w : ℚ, (calculateBMI w "kg" 0 "m" 0).bmi = roundTo1 (jsDivQ w 0) ∧
      (calculateBMI w "kg" 0 "m" 0).category = determineBMICategory (jsDivQ w 0) := by
    intro w
    simp [calculateBMI, mul_zero]
  refine ⟨?_, ?_, by decide, by decide,
    by rw [(hbmi 70).1]; norm_num [jsDivQ, roundTo1],
    by rw [(hbmi 70).2]; norm_num [jsDivQ, determineBMICategory, JSVal.lt, JSVal.ge],
    by rw [(hbmi 0).1]; norm_num [jsDivQ, roundTo1],
    by rw [(hbmi 0).2]; norm_num [jsDivQ, determineBMICategory, JSVal.lt, JSVal.ge]⟩
  · unfold determineBMICategory
    split_ifs <;> simp
  · intro h1 h2 h3
    have g1 : ¬(v.ge (.num 18.5) && v.lt (.num 25.0)) = true := by
      intro hc
      rw [Bool.and_eq_true] at hc
      exact h2 hc
    have g2 : ¬(v.ge (.num 25.0) && v.lt (.num 30.0)) = true := by
      intro hc
      rw [Bool.and_eq_true] at hc
      exact h3 hc
    unfold determineBMICategory
    rw [h1]
    simp [g1, g2]

/-- C3: calculateCalories computes BMR by Mifflin-St Jeor,
base = 10×weightKg + 6.25×heightCm − 5×age, +5 for gender "male" and
−161 for every other gender value, rounded to the nearest integer only at
the output boundary; for age 30, male, 70 kg, 170 cm the bmr is 1618. -/
theorem calorie_bmr_mifflin_st_jeor (age : ℚ) (gender : String)
    (weightKg heightCm : ℚ) (activityLevel : String) :
    (calculateCalories age gender weightKg "kg" heightCm "cm"
        activityLevel 0).bmr
      = jsRound (10 * weightKg + 6.25 * heightCm - 5 * age +
          (if gender = "male" then 5 else -161)) ∧
    (calculateCalories 30 "male" 70 "kg" 170 "cm" "sedentary" 0).bmr
      = 1618 := by
  constructor
  · simp only [calculateCalories, calculateBMR]
    by_cases hg : gender = "male" <;> simp [hg] <;> congr 1 <;> ring
  · simp [calculateCalories, calculateBMR, jsRound]
    all_goals norm_num

/-- C8: the activity multiplier lookup maps the five known keys to their
table values, and every other key falls back to 1.2, so calculateCalories
never fails on an unrecognized activity level (in this total model the
maintenance output is always the rounded bmr × multiplier product). -/
theorem activity_multiplier_lookup_with_default :
    getActivityMultiplier "sedentary" = 1.2 ∧
    getActivityMultiplier "lightly_active" = 1.375 ∧
    getActivityMultiplier "moderately_active" = 1.55 ∧
    getActivityMultiplier "very_active" = 1.725 ∧
    getActivityMultiplier "extra_active" = 1.9 ∧
    (∀ activityLevel : String,
      activityLevel ∉ (["sedentary", "lightly_active", "moderately_active",
        "very_active", "extra_active"] : List String) →
      getActivityMultiplier activityLevel = 1.2) ∧
    (∀ activityLevel : String, ∀ age gender weightKg heightCm,
      (calculateCalories age gender weightKg "kg" heightCm "cm"
          activityLevel 0).maintenance
        = jsRound (calculateBMR age gender weightKg heightCm *
            getActivityMultiplier activityLevel)) := by
  refine ⟨by simp [getActivityMultiplier], by simp [getActivityMultiplier],
    by simp [getActivityMultiplier], by simp [getActivityMultiplier],
    by simp [getActivityMultiplier], ?_, ?_⟩
  · intro s hs
    simp only [List.mem_cons, List.mem_singleton, not_or] at hs
    obtain ⟨n1, n2, n3, n4, n5, _⟩ := hs
    simp [getActivityMultiplier, n1, n2, n3, n4, n5]
  · intro s age gender weightKg heightCm
    simp [calculateCalories, calculateTargets]

/-- C8 witness: the default branch of the lookup applied at a key outside
the table. -/
theorem activity_multiplier_lookup_with_default_witness :
    getActivityMultiplier "weekend_warrior" = 1.2 :=
  activity_multiplier_lookup_with_default.2.2.2.2.2.1 "weekend_warrior"
    (by decide)

/-- One tracker loop step: the total counter always rises by one, and
the completed and current-week counters rise together exactly on
completed exercises. -/
lemma trackStep_counters (acc : TrackerAcc) (e : Exercise) :
    (trackStep acc e).totalWorkouts = acc.totalWorkouts + 1 ∧
    (trackStep acc e).completedWorkouts
      = acc.completedWorkouts + (if e.completed then 1 else 0) ∧
    (trackStep acc e).currentWeekWorkouts
      = acc.currentWeekWorkouts + (if e.completed then 1 else 0) := by
  unfold trackStep
  cases hc : e.completed <;> simp [hc]
  rcases e.completedAt with _ | d <;> simp
  rcases hl : acc.lastWorkoutDate with _ | last <;> simp
  split_ifs <;> simp

/-- Folding the tracker step over a list adds the list length to the
total counter and the completed count to the other two counters. -/
lemma foldl_trackStep (l : List Exercise) (acc : TrackerAcc) :
    (l.foldl trackStep acc).totalWorkouts = acc.totalWorkouts + l.length ∧
    (l.foldl trackStep acc).completedWorkouts
      = acc.completedWorkouts + l.countP (fun e => e.completed) ∧
    (l.foldl trackStep acc).currentWeekWorkouts
      = acc.currentWeekWorkouts + l.countP (fun e => e.completed) := by
  induction l generalizing acc with
  | nil => simp
  | cons e rest ih =>
    simp only [List.foldl_cons, List.countP_cons, List.length_cons]
    obtain ⟨h1, h2, h3⟩ := ih (trackStep acc e)
    obtain ⟨g1, g2, g3⟩ := trackStep_counters acc e
    rw [h1, h2, h3, g1, g2, g3]
    cases e.completed <;> simp <;> omega

/-- The nested per-day loop is the single loop over the concatenation of
the day sequences in day order. -/
lemma foldl_days (p : PlanState) (ds : List Day) (acc : TrackerAcc) :
    ds.foldl (fun a d => (p.dayGet d).foldl trackStep a) acc
      = (ds.flatMap p.dayGet).foldl trackStep acc := by
  induction ds generalizing acc with
  | nil => rfl
  | cons d rest ih => simp [List.foldl_append, ih]

/-- C4: the derived currentWeekWorkouts always equals the count of
exercises with completed = true across the whole plan: the loop applies
no calendar-week filtering. -/
theorem current_week_workouts_equals_completed (p : PlanState) :
    (getWorkoutHistory p).currentWeekWorkouts
      = (allExercises p).countP (fun e => e.completed) := by
  have h := (foldl_trackStep (trackerDays.flatMap p.dayGet)
    { totalWorkouts := 0, completedWorkouts := 0,
      currentWeekWorkouts := 0, lastWorkoutDate := none }).2.2
  simp only [getWorkoutHistory, foldl_days, allExercises]
  simpa using h

/-- C9: completionRate is completedWorkouts / totalWorkouts whenever some
exercise exists, and is exactly 0 for a plan with no exercises in any of
the 7 days (the guarded ternary, no 0/0). -/
theorem completion_rate_guarded (p : PlanState) :
    ((∀ d : Day, p.dayGet d = []) → (getWorkoutHistory p).completionRate = 0) ∧
    (0 < (allExercises p).length →
      (getWorkoutHistory p).completionRate
        = ((allExercises p).countP (fun e => e.completed) : ℚ)
            / ((allExercises p).length : ℚ)) := by
  obtain ⟨h1, h2, _⟩ := foldl_trackStep (trackerDays.flatMap p.dayGet)
    { totalWorkouts := 0, completedWorkouts := 0,
      currentWeekWorkouts := 0, lastWorkoutDate := none }
  constructor
  · intro hd
    have hnil : trackerDays.flatMap p.dayGet = [] := by
      simp [trackerDays, hd]
    simp [getWorkoutHistory, foldl_days, hnil]
  · intro hl
    have hl2 : 0 < (trackerDays.flatMap p.dayGet).length := hl
    simp only [getWorkoutHistory, foldl_days, allExercises]
    rw [h1, h2]
    simp only [Nat.zero_add]
    rw [if_pos hl2]

/-- C9 witness: the empty-plan branch applied at the default plan. -/
theorem completion_rate_guarded_witness :
    (getWorkoutHistory {}).completionRate = 0 :=
  (completion_rate_guarded {}).1 (fun d => by cases d <;> rfl)

/-- Reading a day after writing the same day yields the written list. -/
lemma dayGet_daySet_self (p : PlanState) (d : Day) (l : List Exercise) :
    (p.daySet d l).dayGet d = l := by
  cases d <;> rfl

/-- Reading a different day after a day write is unchanged. -/
lemma dayGet_daySet_ne (p : PlanState) (d d2 : Day) (l : List Exercise)
    (h : d2 ≠ d) : (p.daySet d l).dayGet d2 = p.dayGet d2 := by
  cases d <;> cases d2 <;> first | rfl | exact absurd rfl h

/-- Updating lastModified does not change any day sequence. -/
lemma dayGet_lastModified (p : PlanState) (t : String) (d : Day) :
    ({ p with lastModified := t }).dayGet d = p.dayGet d := by
  cases d <;> rfl

/-- Flipping the completed flag of the first id match twice restores the
original list. -/
lemma toggleFirst_toggleFirst (eid : String) (l : List Exercise) :
    toggleFirst eid (toggleFirst eid l) = l := by
  induction l with
  | nil => rfl
  | cons ex rest ih =>
    by_cases h : ex.id = eid
    · simp [toggleFirst, h]
      rw [← h]
    · simp [toggleFirst, h, ih]

/-- The toggled list still contains an exercise with the toggled id. -/
lemma exists_id_toggleFirst (eid : String) (l : List Exercise)
    (h : ∃ e ∈ l, e.id = eid) : ∃ e ∈ toggleFirst eid l, e.id = eid := by
  induction l with
  | nil => simpa using h
  | cons ex rest ih =>
    by_cases hx : ex.id = eid
    · refine ⟨{ ex with completed := !ex.completed }, ?_, hx⟩
      simp [toggleFirst, hx]
    · obtain ⟨e, he, heid⟩ := h
      rcases List.mem_cons.mp he with rfl | hmem
      · exact absurd heid hx
      · obtain ⟨e2, he2, h2⟩ := ih ⟨e, hmem, heid⟩
        exact ⟨e2, by simp [toggleFirst, hx, he2], h2⟩

/-- An exercise list with an id match makes find? succeed. -/
lemma find?_id_isSome (eid : String) (l : List Exercise)
    (h : ∃ e ∈ l, e.id = eid) :
    ∃ e2, l.find? (fun e => e.id == eid) = some e2 := by
  rw [← Option.isSome_iff_exists, List.find?_isSome]
  obtain ⟨e, he, heid⟩ := h
  exact ⟨e, he, by simp [heid]⟩

/-- C5: for a valid day and an id present in that day, toggling twice
returns true both times and restores every day sequence of the plan (in
particular the completed flag of the toggled exercise). -/
theorem toggle_completion_twice_identity (p : PlanState)
    (day exerciseId t1 t2 : String) (d : Day)
    (hd : parseDay day = some d)
    (hex : ∃ e ∈ p.dayGet d, e.id = exerciseId) :
    (toggleExerciseCompletion p day exerciseId t1).1 = true ∧
    (toggleExerciseCompletion (toggleExerciseCompletion p day exerciseId t1).2
        day exerciseId t2).1 = true ∧
    ∀ d2 : Day,
      (toggleExerciseCompletion (toggleExerciseCompletion p day exerciseId t1).2
          day exerciseId t2).2.dayGet d2 = p.dayGet d2 := by
  obtain ⟨e1, hf1⟩ := find?_id_isSome exerciseId (p.dayGet d) hex
  have hstep1 : toggleExerciseCompletion p day exerciseId t1
      = (true, { p.daySet d (toggleFirst exerciseId (p.dayGet d)) with
                   lastModified := t1 }) := by
    simp only [toggleExerciseCompletion, hd, hf1]
  set p1 : PlanState :=
    { p.daySet d (toggleFirst exerciseId (p.dayGet d)) with
        lastModified := t1 } with hp1
  have hp1d : p1.dayGet d = toggleFirst exerciseId (p.dayGet d) := by
    rw [hp1, dayGet_lastModified, dayGet_daySet_self]
  have hp1ne : ∀ d2 : Day, d2 ≠ d → p1.dayGet d2 = p.dayGet d2 := by
    intro d2 hne
    rw [hp1, dayGet_lastModified, dayGet_daySet_ne _ _ _ _ hne]
  obtain ⟨e2, hf2⟩ := find?_id_isSome exerciseId (p1.dayGet d)
    (hp1d ▸ exists_id_toggleFirst exerciseId (p.dayGet d) hex)
  have hstep2 : toggleExerciseCompletion p1 day exerciseId t2
      = (true, { p1.daySet d (toggleFirst exerciseId (p1.dayGet d)) with
                   lastModified := t2 }) := by
    simp only [toggleExerciseCompletion, hd, hf2]
  refine ⟨by rw [hstep1], by rw [hstep1, hstep2], ?_⟩
  intro d2
  rw [hstep1]
  simp only [hstep2]
  by_cases hne : d2 = d
  · subst hne
    rw [dayGet_lastModified, dayGet_daySet_self, hp1d,
        toggleFirst_toggleFirst]
  · rw [dayGet_lastModified, dayGet_daySet_ne _ _ _ _ hne, hp1ne d2 hne]

/-- A concrete exercise used to exercise the planner operations. -/
def sampleExercise : Exercise :=
  { id := "a", name := "Squats", sets := 3, reps := 10,
    completed := false, addedAt := "t0" }

/-- A second concrete exercise with a different id. -/
def sampleExercise2 : Exercise :=
  { id := "b", name := "Lunges", sets := 2, reps := 8,
    completed := false, addedAt := "t0" }

/-- A concrete plan with two Monday exercises. -/
def samplePlan : PlanState := { monday := [sampleExercise, sampleExercise2] }

/-- C5 witness: the double toggle applied to a concrete plan. -/
theorem toggle_completion_twice_identity_witness :
    (toggleExerciseCompletion samplePlan "monday" "a" "t1").1 = true ∧
    (toggleExerciseCompletion (toggleExerciseCompletion samplePlan "monday" "a" "t1").2
        "monday" "a" "t2").1 = true ∧
    (toggleExerciseCompletion (toggleExerciseCompletion samplePlan "monday" "a" "t1").2
        "monday" "a" "t2").2.dayGet .monday = samplePlan.dayGet .monday := by
  have h := toggle_completion_twice_identity samplePlan "monday" "a" "t1" "t2"
    .monday (by decide)
    ⟨sampleExercise, by simp [samplePlan, PlanState.dayGet], rfl⟩
  exact ⟨h.1, h.2.1, h.2.2 .monday⟩

/-- findIndex misses when no entry has the id, from any start offset. -/
lemma findIdx?_id_none (eid : String) (l : List Exercise)
    (h : ∀ e ∈ l, e.id ≠ eid) :
    ∀ i, l.findIdx? (fun e => e.id == eid) i = none := by
  induction l with
  | nil => intro i; rfl
  | cons ex rest ih =>
    intro i
    have hx : (ex.id == eid) = false :=
      beq_eq_false_iff_ne.mpr (h ex (List.mem_cons_self _ _))
    rw [List.findIdx?_cons, hx]
    simp only [Bool.false_eq_true, if_false]
    exact ih (fun e he => h e (List.mem_cons_of_mem _ he)) (i + 1)

/-- findIndex returns the offset of the first id match. -/
lemma findIdx?_id_first (eid : String) (pre : List Exercise) (ex : Exercise)
    (post : List Exercise) (hpre : ∀ e ∈ pre, e.id ≠ eid)
    (hex : ex.id = eid) :
    ∀ i, (pre ++ ex :: post).findIdx? (fun e => e.id == eid) i
      = some (i + pre.length) := by
  induction pre with
  | nil =>
    intro i
    simp [List.findIdx?_cons, hex]
  | cons a r ih =>
    intro i
    have hx : (a.id == eid) = false :=
      beq_eq_false_iff_ne.mpr (hpre a (List.mem_cons_self _ _))
    rw [List.cons_append, List.findIdx?_cons, hx]
    simp only [Bool.false_eq_true, if_false]
    rw [ih (fun e he => hpre e (List.mem_cons_of_mem _ he)) (i + 1)]
    congr 1
    simp
    omega

/-- Splicing out the entry at the length of the prefix removes exactly
that entry. -/
lemma eraseIdx_append_length (pre post : List Exercise) (ex : Exercise) :
    (pre ++ ex :: post).eraseIdx pre.length = pre ++ post := by
  induction pre with
  | nil => rfl
  | cons a r ih => simp [List.eraseIdx_cons_succ, ih]

/-- C6: removeExercise returns false and leaves the plan unchanged when
the day is invalid or the id is absent from that day; when the id is
present it removes exactly the first matching entry and returns true,
leaving every other day unchanged. -/
theorem remove_exercise_spec (p : PlanState) (day exerciseId now : String) :
    (parseDay day = none → removeExercise p day exerciseId now = (false, p)) ∧
    (∀ d : Day, parseDay day = some d →
      (∀ e ∈ p.dayGet d, e.id ≠ exerciseId) →
      removeExercise p day exerciseId now = (false, p)) ∧
    (∀ d : Day, parseDay day = some d →
      ∀ pre ex post, p.dayGet d = pre ++ ex :: post → ex.id = exerciseId →
      (∀ e ∈ pre, e.id ≠ exerciseId) →
      (removeExercise p day exerciseId now).1 = true ∧
      (removeExercise p day exerciseId now).2.dayGet d = pre ++ post ∧
      (∀ d2 : Day, d2 ≠ d →
        (removeExercise p day exerciseId now).2.dayGet d2 = p.dayGet d2)) := by
  refine ⟨?_, ?_, ?_⟩
  · intro h
    simp only [removeExercise, h]
  · intro d hd hnone
    have hn := findIdx?_id_none exerciseId (p.dayGet d) hnone 0
    simp only [removeExercise, hd, hn]
  · intro d hd pre ex post hsplit hexid hpre
    have hf : (p.dayGet d).findIdx? (fun e => e.id == exerciseId)
        = some pre.length := by
      rw [hsplit]
      simpa using findIdx?_id_first exerciseId pre ex post hpre hexid 0
    refine ⟨?_, ?_, ?_⟩
    · simp only [removeExercise, hd, hf]
    · simp only [removeExercise, hd, hf]
      rw [dayGet_lastModified, dayGet_daySet_self, hsplit,
          eraseIdx_append_length]
    · intro d2 hne
      simp only [removeExercise, hd, hf]
      rw [dayGet_lastModified, dayGet_daySet_ne _ _ _ _ hne]

/-- C6 witness: removing the first Monday exercise of the concrete plan. -/
theorem remove_exercise_spec_witness :
    (removeExercise samplePlan "monday" "a" "t1").1 = true ∧
    (removeExercise samplePlan "monday" "a" "t1").2.dayGet .monday
      = [sampleExercise2] := by
  have h := (remove_exercise_spec samplePlan "monday" "a" "t1").2.2 .monday
    (by decide) [] sampleExercise [sampleExercise2]
    (by simp [samplePlan, PlanState.dayGet]) rfl (by simp)
  exact ⟨h.1, by simpa using h.2.1⟩

/-- C7: addExercise reports the first failing check in the fixed order
name, sets, reps, day, and fails exactly when one of the four checks
fails. -/
theorem add_exercise_first_error (p : PlanState) (day exerciseName : String)
    (sets reps : ℚ) (freshId now : String) :
    (Validator.isNotEmpty exerciseName = false →
      (addExercise p day exerciseName sets reps freshId now).1
        = .failure "Please enter an exercise name") ∧
    (Validator.isNotEmpty exerciseName = true →
      Validator.isPositiveNumber sets = false →
      (addExercise p day exerciseName sets reps freshId now).1
        = .failure "Sets must be a positive number") ∧
    (Validator.isNotEmpty exerciseName = true →
      Validator.isPositiveNumber sets = true →
      Validator.isPositiveNumber reps = false →
      (addExercise p day exerciseName sets reps freshId now).1
        = .failure "Reps must be a positive number") ∧
    (Validator.isNotEmpty exerciseName = true →
      Validator.isPositiveNumber sets = true →
      Validator.isPositiveNumber reps = true →
      parseDay day = none →
      (addExercise p day exerciseName sets reps freshId now).1
        = .failure "Please select a valid day of the week") ∧
    ((∃ err, (addExercise p day exerciseName sets reps freshId now).1
        = .failure err) ↔
      (Validator.isNotEmpty exerciseName = false ∨
       Validator.isPositiveNumber sets = false ∨
       Validator.isPositiveNumber reps = false ∨
       parseDay day = none)) := by
  rcases h1 : Validator.isNotEmpty exerciseName <;>
    rcases h2 : Validator.isPositiveNumber sets <;>
    rcases h3 : Validator.isPositiveNumber reps <;>
    rcases hd : parseDay day with _ | d <;>
    simp [addExercise, validateExerciseInput, h1, h2, h3, hd]

/-- C7 witness: an input failing the name, sets, reps and day checks at
once reports the name error. -/
theorem add_exercise_first_error_witness :
    (addExercise {} "notaday" "" 0 0 "i" "t").1
      = .failure "Please enter an exercise name" :=
  (add_exercise_first_error {} "notaday" "" 0 0 "i" "t").1 (by decide)

/-- The truncating parseInt of one half is zero. -/
lemma jsParseIntQ_half : jsParseIntQ (1/2 : ℚ) = 0 := by
  norm_num [jsParseIntQ]

/-- The truncating parseInt of ten is ten. -/
lemma jsParseIntQ_ten : jsParseIntQ (10 : ℚ) = 10 := by
  norm_num [jsParseIntQ]

/-- C1 counterexample: sets = 0.5 is accepted by the validation contract
(isPositiveNumber holds), yet the Exercise appended to monday stores
sets = parseInt(0.5) = 0, which is not a positive integer. -/
theorem add_exercise_positive_integer_cex :
    Validator.isPositiveNumber (1/2 : ℚ) = true ∧
    validateExerciseInput "Squats" (1/2 : ℚ) 10 = none ∧
    (addExercise {} "monday" "Squats" (1/2 : ℚ) 10 "ex1" "t0").1
      = .success { id := "ex1", name := "Squats", sets := 0, reps := 10,
                   completed := false, addedAt := "t0" } ∧
    ¬ (0 : ℤ) > 0 := by
  have hpos : Validator.isPositiveNumber (1/2 : ℚ) = true := by
    simp only [Validator.isPositiveNumber, decide_eq_true_eq]
    norm_num
  have hten : Validator.isPositiveNumber (10 : ℚ) = true := by
    simp only [Validator.isPositiveNumber, decide_eq_true_eq]
    norm_num
  have hname : Validator.isNotEmpty "Squats" = true := by decide
  have hval : validateExerciseInput "Squats" (1/2 : ℚ) 10 = none := by
    unfold validateExerciseInput
    rw [hname, hpos, hten]
    decide
  have hday : parseDay "monday" = some .monday := by decide
  refine ⟨hpos, hval, ?_, by decide⟩
  have hstep : (addExercise {} "monday" "Squats" (1/2 : ℚ) 10 "ex1" "t0").1
      = .success { id := "ex1", name := jsTrim "Squats",
                   sets := jsParseIntQ (1/2 : ℚ), reps := jsParseIntQ 10,
                   completed := false, addedAt := "t0" } := by
    simp only [addExercise, hval, hday]
  rw [hstep, jsParseIntQ_half, jsParseIntQ_ten,
    show jsTrim "Squats" = "Squats" from by decide]

/-- C1 amended: for accepted inputs whose sets and reps are at least 1
(in particular every positive integer input), the Exercise appended to
the valid day's sequence has integer sets > 0 and reps > 0. -/
theorem add_exercise_positive_integer_amended (p : PlanState)
    (day exerciseName : String) (sets reps : ℚ) (freshId now : String)
    (ex : Exercise) (p2 : PlanState)
    (hs : 1 ≤ sets) (hr : 1 ≤ reps)
    (h : addExercise p day exerciseName sets reps freshId now
      = (.success ex, p2)) :
    0 < ex.sets ∧ 0 < ex.reps ∧
    ∃ d : Day, parseDay day = some d ∧
      p2.dayGet d = p.dayGet d ++ [ex] := by
  unfold addExercise at h
  rcases hv : validateExerciseInput exerciseName sets reps with _ | e
  swap
  · rw [hv] at h
    exact absurd (congrArg Prod.fst h) (by simp)
  rw [hv] at h
  rcases hd : parseDay day with _ | d
  · rw [hd] at h
    exact absurd (congrArg Prod.fst h) (by simp)
  rw [hd] at h
  have hex : ex = { id := freshId,
                    name := jsTrim exerciseName,
                    sets := jsParseIntQ sets,
                    reps := jsParseIntQ reps,
                    completed := false,
                    addedAt := now } := by
    have h1 := congrArg Prod.fst h
    simpa using h1.symm
  have hp2 : p2 = { p.daySet d (p.dayGet d ++
                      [{ id := freshId,
                         name := jsTrim exerciseName,
                         sets := jsParseIntQ sets,
                         reps := jsParseIntQ reps,
                         completed := false,
                         addedAt := now }]) with lastModified := now } := by
    have h2 := congrArg Prod.snd h
    simpa using h2.symm
  have hsets : 0 < jsParseIntQ sets := by
    rw [jsParseIntQ, if_pos (by linarith : (0:ℚ) ≤ sets)]
    have : (1 : ℤ) ≤ ⌊sets⌋ := Int.le_floor.mpr (by exact_mod_cast hs)
    omega
  have hreps : 0 < jsParseIntQ reps := by
    rw [jsParseIntQ, if_pos (by linarith : (0:ℚ) ≤ reps)]
    have : (1 : ℤ) ≤ ⌊reps⌋ := Int.le_floor.mpr (by exact_mod_cast hr)
    omega
  refine ⟨by rw [hex]; exact hsets, by rw [hex]; exact hreps, d, rfl, ?_⟩
  rw [hp2, hex, dayGet_lastModified, dayGet_daySet_self]

/-- C1 amended witness: integer inputs 3 and 10 give a stored exercise
with positive integer sets and reps. -/
theorem add_exercise_positive_integer_amended_witness :
    0 < ({ id := "e1", name := "Pushups", sets := 3, reps := 10,
           completed := false, addedAt := "t1" } : Exercise).sets ∧
    0 < ({ id := "e1", name := "Pushups", sets := 3, reps := 10,
           completed := false, addedAt := "t1" } : Exercise).reps := by
  have hadd : addExercise {} "monday" "Pushups" (3 : ℚ) (10 : ℚ) "e1" "t1"
      = (.success { id := "e1", name := "Pushups", sets := 3, reps := 10,
                    completed := false, addedAt := "t1" },
         { monday := [{ id := "e1", name := "Pushups", sets := 3, reps := 10,
                        completed := false, addedAt := "t1" }],
           lastModified := "t1" }) := by
    have h3 : Validator.isPositiveNumber (3 : ℚ) = true := by
      simp only [Validator.isPositiveNumber, decide_eq_true_eq]
      norm_num
    have h10 : Validator.isPositiveNumber (10 : ℚ) = true := by
      simp only [Validator.isPositiveNumber, decide_eq_true_eq]
      norm_num
    have hn : Validator.isNotEmpty "Pushups" = true := by decide
    have h3i : jsParseIntQ (3 : ℚ) = 3 := by norm_num [jsParseIntQ]
    have hvp : validateExerciseInput "Pushups" (3 : ℚ) (10 : ℚ) = none := by
      unfold validateExerciseInput
      rw [hn, h3, h10]
      decide
    have hdy : parseDay "monday" = some .monday := by decide
    simp only [addExercise, hvp, hdy, h3i, jsParseIntQ_ten,
      show jsTrim "Pushups" = "Pushups" from by decide]
    rfl
  have h := add_exercise_positive_integer_amended {} "monday" "Pushups"
    3 10 "e1" "t1" _ _ (by norm_num) (by norm_num) hadd
  exact ⟨h.1, h.2.1⟩

/-- C10 witness: the catch-all implication applied at NaN. -/
theorem bmi_category_total_obese_catchall_witness :
    determineBMICategory .nan = "Obese" :=
  (bmi_category_total_obese_catchall .nan).2.1 (by decide)
    (by decide) (by decide)

end FitnessTracker
